import Mathlib

/-!
Verification of the custom Terraform attribute type for Juju constraints
implemented in `internal/juju/contraints.go`.

The development embeds, shallowly:

* the Juju constraints library used by the code (`constraints.Parse`,
  `constraints.Value.String`), modelled on its scalar constraint fields
  (a structured value of optional typed fields, parsed from
  space-separated `name=value` tokens and canonically re-rendered in a
  fixed field order);
* the Terraform plugin framework collaborators the code calls:
  `basetypes.StringValue` (three-valued: null / unknown / known) with its
  `String()` debug rendering, which wraps known content in `%q` quotes,
  `basetypes.StringType.ValueFromTerraform`, `tftypes.Value` with its
  `String()` rendering `tftypes.String<"...">`, and the framework's
  diagnostics;
* the repository's own functions: `ConstraintsType.Equal`, `String`,
  `ValueFromString`, `ValueFromTerraform`, `Validate`,
  `GetConstraintsValue`, `ConstraintsNull`, `ConstraintsUnknown`,
  `ConstraintsValue.Equal`, `ConstraintsValue.String`.

Go's `reflect.DeepEqual` on the structured constraints value (a struct of
pointer fields compared by pointee) is modelled by decidable structural
equality on a structure of `Option` fields.
-/

deriving instance DecidableEq for Except

namespace TFJuju

/-! ### Characters and low-level string helpers -/

/-- Whitespace characters recognised by the model of `strings.TrimSpace`. -/
def isSpaceChar (c : Char) : Bool :=
  c = ' ' || c = '\t' || c = '\n' || c = '\r'

/-- Drop leading whitespace characters. -/
def dropLeading : List Char → List Char
  | [] => []
  | c :: cs => if isSpaceChar c then dropLeading cs else c :: cs

/-- Model of Go `strings.TrimSpace` on the character list of a string:
drop trailing whitespace (via a reversal) and then leading whitespace. -/
def trimSpaces (cs : List Char) : List Char :=
  dropLeading (dropLeading cs.reverse).reverse

/-- Accumulator worker for `words`. -/
def wordsAux : List Char → List Char → List String
  | [], acc => if acc = [] then [] else [String.mk acc.reverse]
  | c :: cs, acc =>
    if c = ' ' then
      if acc = [] then wordsAux cs [] else String.mk acc.reverse :: wordsAux cs []
    else wordsAux cs (c :: acc)

/-- Model of Go `strings.Split(s, " ")` followed by skipping the empty
fields, as the Juju parser's token loop does: the non-empty
space-separated tokens, in order. -/
def words (cs : List Char) : List String := wordsAux cs []

/-- Escaping applied by Go `%q` to a single character: double quote and
backslash are escaped; other (printable) characters are kept as-is.
Control and non-ASCII escaping is not modelled; the strings exercised
here are plain printable ASCII, where this model is exact. -/
def goEscapeChar (c : Char) : List Char :=
  if c = '\"' then ['\\', '\"'] else if c = '\\' then ['\\', '\\'] else [c]

/-- Escape every character of a list, Go `%q`-style. -/
def goEscape : List Char → List Char
  | [] => []
  | c :: cs => goEscapeChar c ++ goEscape cs

/-- Model of Go `fmt.Sprintf("%q", s)` (`strconv.Quote`): the escaped
content wrapped in double quotes. This is what
`basetypes.StringValue.String()` returns for a known value. -/
def goQuote (s : String) : String :=
  String.mk ('\"' :: (goEscape s.toList ++ ['\"']))

/-- Value of a decimal digit character. -/
def digitVal (c : Char) : Option Nat :=
  if c.isDigit then some (c.toNat - '0'.toNat) else none

/-- Accumulate the value of a run of decimal digits; fails on the first
non-digit. -/
def digitsToNatAux : Nat → List Char → Option Nat
  | acc, [] => some acc
  | acc, c :: cs =>
    match digitVal c with
    | none => none
    | some d => digitsToNatAux (10 * acc + d) cs

/-- Non-negative decimal integer; `none` on the empty list or on any
non-digit character. -/
def decimalNat? : List Char → Option Nat
  | [] => none
  | c :: cs => digitsToNatAux 0 (c :: cs)

/-! ### Model of the Juju constraints library

The repository treats `github.com/juju/juju/core/constraints` as a black
box: `Parse` turns a string into a structured value or an error, and
`Value.String` renders the structured value canonically. The model below
follows that library's behaviour on the scalar constraint fields
(`arch`, `container`, `cores`, `cpu-power`, `instance-type`, `mem`,
`root-disk`, `virt-type`); list-valued constraints, aliases such as
`cpu-cores`, and fractional size quantities are outside the model. -/

/-- Model of the library's `parseUint64`: the empty string denotes 0
(an explicitly cleared constraint); otherwise a decimal integer. -/
def parseUint64? (s : String) : Option Nat :=
  if s = "" then some 0 else decimalNat? s.toList

/-- Megabyte multiplier of a size suffix. -/
def memMultiplier : Char → Option Nat
  | 'M' => some 1
  | 'G' => some 1024
  | 'T' => some (1024 * 1024)
  | 'P' => some (1024 * 1024 * 1024)
  | _ => none

/-- Model of the library's `parseSize` (megabytes): the empty string
denotes 0; otherwise a quantity with an optional M/G/T/P suffix.
Restricted to integer quantities. -/
def parseSize? (s : String) : Option Nat :=
  if s = "" then some 0
  else
    match s.toList.reverse with
    | [] => some 0
    | last :: revInit =>
      match memMultiplier last with
      | some m =>
        match decimalNat? revInit.reverse with
        | some n => some (n * m)
        | none => none
      | none => decimalNat? s.toList

/-- Parsed Juju constraints: named optional fields. `reflect.DeepEqual`
on the Go struct of pointers corresponds to decidable structural
equality here. -/
structure ConstraintsV where
  arch : Option String := none
  container : Option String := none
  cpuCores : Option Nat := none
  cpuPower : Option Nat := none
  instanceType : Option String := none
  mem : Option Nat := none
  rootDisk : Option Nat := none
  virtType : Option String := none
deriving DecidableEq

/-- Split a token at its first `=`: `none` when there is no `=`,
otherwise the characters before it and after it. -/
def splitEq : List Char → Option (List Char × List Char)
  | [] => none
  | c :: cs =>
    if c = '=' then some ([], cs)
    else
      match splitEq cs with
      | none => none
      | some (n, v) => some (c :: n, v)

/-- Model of the library's `splitRaw`: error when the token has no `=`
or starts with `=`. -/
def splitRaw (raw : String) : Except String (String × String) :=
  match splitEq raw.toList with
  | none => .error ("malformed constraint " ++ goQuote raw)
  | some ([], _) => .error ("malformed constraint " ++ goQuote raw)
  | some (c :: n, v) => .ok (String.mk (c :: n), String.mk v)

/-- Model of the library's `setRaw` dispatch on the constraint name:
sets the named field, rejecting duplicates and malformed quantities;
unknown names are errors. -/
def setConstraint (v : ConstraintsV) (name val : String) : Except String ConstraintsV :=
  if name = "arch" then
    if v.arch.isSome then .error ("already set constraint " ++ goQuote name)
    else .ok { v with arch := some val }
  else if name = "container" then
    if v.container.isSome then .error ("already set constraint " ++ goQuote name)
    else .ok { v with container := some val }
  else if name = "cores" then
    if v.cpuCores.isSome then .error ("already set constraint " ++ goQuote name)
    else
      match parseUint64? val with
      | none => .error ("bad " ++ goQuote name ++ " constraint: must be a non-negative integer")
      | some n => .ok { v with cpuCores := some n }
  else if name = "cpu-power" then
    if v.cpuPower.isSome then .error ("already set constraint " ++ goQuote name)
    else
      match parseUint64? val with
      | none => .error ("bad " ++ goQuote name ++ " constraint: must be a non-negative integer")
      | some n => .ok { v with cpuPower := some n }
  else if name = "instance-type" then
    if v.instanceType.isSome then .error ("already set constraint " ++ goQuote name)
    else .ok { v with instanceType := some val }
  else if name = "mem" then
    if v.mem.isSome then .error ("already set constraint " ++ goQuote name)
    else
      match parseSize? val with
      | none =>
        .error ("bad " ++ goQuote name ++
          " constraint: must be a non-negative float with optional M/G/T/P suffix")
      | some n => .ok { v with mem := some n }
  else if name = "root-disk" then
    if v.rootDisk.isSome then .error ("already set constraint " ++ goQuote name)
    else
      match parseSize? val with
      | none =>
        .error ("bad " ++ goQuote name ++
          " constraint: must be a non-negative float with optional M/G/T/P suffix")
      | some n => .ok { v with rootDisk := some n }
  else if name = "virt-type" then
    if v.virtType.isSome then .error ("already set constraint " ++ goQuote name)
    else .ok { v with virtType := some val }
  else .error ("unknown constraint " ++ goQuote name)

/-- One step of the library's parsing loop: split a raw token and set
the named constraint. -/
def setRaw (v : ConstraintsV) (raw : String) : Except String ConstraintsV :=
  match splitRaw raw with
  | .error e => .error e
  | .ok (name, val) => setConstraint v name val

/-- The library's parsing loop over the tokens, stopping at the first
error. -/
def parseTokens : ConstraintsV → List String → Except String ConstraintsV
  | v, [] => .ok v
  | v, raw :: rest =>
    match setRaw v raw with
    | .error e => .error e
    | .ok v2 => parseTokens v2 rest

/-- Model of `constraints.Parse` on a single argument string: trim it,
split it into space-separated tokens, and fold `setRaw` over them
starting from the zero value. The empty string parses to the zero
value. -/
def constraintsParse (arg : String) : Except String ConstraintsV :=
  parseTokens {} (words (trimSpaces arg.toList))

/-- Rendering of an unsigned quantity: zero renders as the empty
string. -/
def uintStr (n : Nat) : String := if n = 0 then "" else toString n

/-- Rendering of a size in megabytes: the quantity with an `M` suffix,
zero rendering as the empty string. -/
def sizeStr (n : Nat) : String := if n = 0 then "" else toString n ++ "M"

/-- Render an optional field as a `name=value` token (absent fields
render as nothing). -/
def optPart (name : String) : Option String → List String
  | none => []
  | some s => [name ++ "=" ++ s]

/-- Join tokens with single spaces. -/
def joinSp : List String → String
  | [] => ""
  | [s] => s
  | s :: s2 :: rest => s ++ " " ++ joinSp (s2 :: rest)

/-- Model of the library's `Value.String`: canonical rendering of the
present fields in the library's fixed field order. The zero value
renders as the empty string. -/
def ConstraintsV.toStr (v : ConstraintsV) : String :=
  joinSp
    (optPart "arch" v.arch ++
     optPart "container" v.container ++
     optPart "cores" (v.cpuCores.map uintStr) ++
     optPart "cpu-power" (v.cpuPower.map uintStr) ++
     optPart "instance-type" v.instanceType ++
     optPart "mem" (v.mem.map sizeStr) ++
     optPart "root-disk" (v.rootDisk.map sizeStr) ++
     optPart "virt-type" v.virtType)

/-! ### Model of the Terraform plugin framework collaborators -/

/-- Model of `basetypes.StringValue`: the framework's three-valued
string attribute value. The zero Go value has the null state. -/
inductive StringValue where
  | null
  | unknown
  | known (value : String)
deriving DecidableEq

/-- Model of `StringValue.IsNull`. -/
def StringValue.isNull : StringValue → Bool
  | .null => true
  | _ => false

/-- Model of `StringValue.IsUnknown`. -/
def StringValue.isUnknown : StringValue → Bool
  | .unknown => true
  | _ => false

/-- Model of `basetypes.StringValue.String()`: the human-readable debug
rendering — `<null>`, `<unknown>`, or the known content wrapped in `%q`
quotes. This, not the raw content, is what the method named `String`
returns in the framework. -/
def StringValue.stringMethod : StringValue → String
  | .null => "<null>"
  | .unknown => "<unknown>"
  | .known s => goQuote s

/-- Model of a framework diagnostic: severity, optional attribute path,
summary and detail. -/
structure Diagnostic where
  isError : Bool
  attrPath : Option String
  summary : String
  detail : String
deriving DecidableEq

/-- Model of `diag.NewErrorDiagnostic` / `diags.AddError`. -/
def newErrorDiagnostic (summary detail : String) : Diagnostic :=
  { isError := true, attrPath := none, summary := summary, detail := detail }

/-- Model of `diags.AddAttributeError`. -/
def newAttributeErrorDiagnostic (p summary detail : String) : Diagnostic :=
  { isError := true, attrPath := some p, summary := summary, detail := detail }

/-- Model of `diag.Diagnostics.HasError`. -/
def hasError (ds : List Diagnostic) : Bool := ds.any (·.isError)

/-- Model of `tftypes.Value` as the repository's code can observe it: a
string-typed wire value (null, unknown or known) or a known value of
some non-string type. -/
inductive TfValue where
  | nullString
  | unknownString
  | knownString (s : String)
  | nonString
deriving DecidableEq

/-- Model of `tftypes.Value.IsKnown`. -/
def TfValue.isKnown : TfValue → Bool
  | .unknownString => false
  | _ => true

/-- Model of `tftypes.Value.IsNull`. -/
def TfValue.isNull : TfValue → Bool
  | .nullString => true
  | _ => false

/-- Model of `tftypes.Value.As(&value)` with a string target: succeeds
exactly on known string-typed values. The null and unknown branches are
never reached by the repository's code, which returns early on them. -/
def TfValue.asString : TfValue → Except String String
  | .knownString s => .ok s
  | .nullString => .error "unmarshaling null values is not supported"
  | .unknownString => .error "unmarshaling unknown values is not supported"
  | .nonString => .error "can't unmarshal tftypes.Number into *string, expected string"

/-- Model of `tftypes.Value.String()`: the type-annotated debug
rendering; a known string value renders as `tftypes.String<` followed by
its `%q`-quoted content and `>`. -/
def TfValue.stringMethod : TfValue → String
  | .nullString => "tftypes.String<null>"
  | .unknownString => "tftypes.String<unknown>"
  | .knownString s => "tftypes.String<" ++ goQuote s ++ ">"
  | .nonString => "tftypes.Number<1>"

/-- Model of `basetypes.StringType.ValueFromTerraform`: unknown and null
wire values become the unknown and null string values; a known
string-typed value becomes a known string value; a known value of
another type is a hard conversion error. -/
def stringTypeValueFromTerraform : TfValue → Except String StringValue
  | .unknownString => .ok StringValue.unknown
  | .nullString => .ok StringValue.null
  | .knownString s => .ok (StringValue.known s)
  | .nonString => .error "can't unmarshal tftypes.Number into *string, expected string"

/-! ### The repository's `ConstraintsType` (contraints.go lines 23-131) -/

/-- Embedding of the repository's `ConstraintsType`: a struct with no
state of its own beyond the embedded (stateless) `basetypes.StringType`
(contraints.go line 23). -/
structure ConstraintsType where
deriving DecidableEq

/-- Model of `attr.Type` as seen by `ConstraintsType.Equal`: either a
`ConstraintsType`, the plain framework string type, or some other
type. -/
inductive AttrType where
  | constraints (t : ConstraintsType)
  | stringType
  | other (name : String)
deriving DecidableEq

/-- Embedding of `ConstraintsType.Equal` (contraints.go line 27): the
type assertion to `ConstraintsType` fails for every other `attr.Type`;
on success it defers to the embedded `basetypes.StringType.Equal`, which
holds between any two `StringType` values. -/
def ConstraintsType.equal (_t : ConstraintsType) (o : AttrType) : Bool :=
  match o with
  | .constraints _ => true
  | _ => false

/-- Embedding of `ConstraintsType.String` (contraints.go line 100). -/
def ConstraintsType.stringMethod (_t : ConstraintsType) : String := "ConstraintsType"

/-! ### The repository's `ConstraintsValue` (contraints.go lines 139-229) -/

/-- Embedding of the repository's `ConstraintsValue`: an embedded
`basetypes.StringValue` together with the parsed `Constraints`. The Go
zero value has a null string value and the zero constraints, which the
default field values mirror. -/
structure ConstraintsValue where
  stringValue : StringValue := StringValue.null
  constraints : ConstraintsV := {}
deriving DecidableEq

/-- Embedding of `ConstraintsNull` (contraints.go line 144): a null
string value and the zero-valued `Constraints`. -/
def ConstraintsNull : ConstraintsValue := { stringValue := StringValue.null }

/-- Embedding of `ConstraintsUnknown` (contraints.go line 148): an
unknown string value and the zero-valued `Constraints`. -/
def ConstraintsUnknown : ConstraintsValue := { stringValue := StringValue.unknown }

/-- Embedding of `ConstraintsValue.String` (contraints.go line 223): the
canonical rendering of the `Constraints` field, regardless of the
embedded string value's state. -/
def ConstraintsValue.stringMethod (t : ConstraintsValue) : String :=
  t.constraints.toStr

/-- Model of `attr.Value` as seen by `ConstraintsValue.Equal`: a
`ConstraintsValue`, a plain `basetypes.StringValue`, or a value of some
other shape. -/
inductive AttrValue where
  | constraintsVal (v : ConstraintsValue)
  | stringVal (sv : StringValue)
  | otherVal
deriving DecidableEq

/-- Embedding of `ConstraintsValue.Equal` (contraints.go line 204). When
the type assertion `o.(ConstraintsValue)` fails, Go leaves `other` as
the zero `ConstraintsValue`; in the plain-string branch the code then
parses `other.String()` — the zero value's rendering — exactly as
written in the source, and compares with `reflect.DeepEqual`. -/
def ConstraintsValue.equal (t : ConstraintsValue) (o : AttrValue) : Bool :=
  match o with
  | .constraintsVal other => decide (t.constraints = other.constraints)
  | .stringVal _ =>
    let other : ConstraintsValue := {}
    match constraintsParse other.stringMethod with
    | .error _ => false
    | .ok valOther => decide (t.constraints = valOther)
  | .otherVal => false

/-! ### The repository's conversion and validation functions -/

/-- Embedding of `GetConstraintsValue` (contraints.go line 35): parse
the raw string; on failure return `ConstraintsUnknown` plus one error
diagnostic; on success return the value carrying the raw input string
and the parsed constraints, with no diagnostics. -/
def GetConstraintsValue (value : String) : ConstraintsValue × List Diagnostic :=
  match constraintsParse value with
  | .error e => (ConstraintsUnknown, [newErrorDiagnostic "Invalid Constraints Format" e])
  | .ok v => ({ stringValue := StringValue.known value, constraints := v }, [])

/-- Embedding of `ConstraintsType.ValueFromString` (contraints.go line
50). Null and unknown inputs are returned as the null and unknown
constraints values with no diagnostics. A known input is parsed from
`in.String()` — the `%q`-quoted debug rendering, as the source is
written — and on failure `nil` plus one error diagnostic is returned;
on success the value carries the canonical re-rendering. -/
def ValueFromString (i : StringValue) : Option ConstraintsValue × List Diagnostic :=
  if i.isNull then (some ConstraintsNull, [])
  else if i.isUnknown then (some ConstraintsUnknown, [])
  else
    match constraintsParse i.stringMethod with
    | .error e =>
      (none,
        [newErrorDiagnostic "invalid constraints format" ("failed to parse constraints: " ++ e)])
    | .ok cv =>
      (some { stringValue := StringValue.known cv.toStr, constraints := cv }, [])

/-- Rendering of a diagnostics list used when `ValueFromTerraform`
formats the diagnostics into its wrapping error (Go `%v`). -/
def diagsToString (ds : List Diagnostic) : String :=
  joinSp (ds.map fun d => d.summary ++ ": " ++ d.detail)

/-- The error message `ValueFromTerraform` wraps failing diagnostics
into (contraints.go line 90). -/
def wrapDiagsMsg (ds : List Diagnostic) : String :=
  "unexpected error converting StringValue to StringValuable: " ++ diagsToString ds

/-- Embedding of `ConstraintsType.ValueFromTerraform` (contraints.go
line 77): adapt the wire value through
`basetypes.StringType.ValueFromTerraform` (propagating its error),
delegate to `ValueFromString`, and wrap any error diagnostics into a
single returned error. The intermediate type assertion to
`basetypes.StringValue` always succeeds, since the string type produces
string values. -/
def ValueFromTerraform (i : TfValue) : Except String (Option ConstraintsValue) :=
  match stringTypeValueFromTerraform i with
  | .error e => .error e
  | .ok sv =>
    let r := ValueFromString sv
    if hasError r.2 then .error (wrapDiagsMsg r.2) else .ok r.1

/-- Embedding of `ConstraintsType.Validate` (contraints.go line 104):
unknown or null wire values are accepted with no diagnostics; a known
value is converted to a string with `in.As` (one attribute error on
failure), and then — exactly as the source is written — `in.String()`,
the type-annotated debug rendering, is parsed, with one attribute error
on parse failure. The converted `value` is never used. -/
def Validate (i : TfValue) (p : String) : List Diagnostic :=
  if !i.isKnown || i.isNull then []
  else
    match i.asString with
    | .error e =>
      [newAttributeErrorDiagnostic p "Constraints Type Validation Error"
        ("Cannot convert value to string: " ++ e)]
    | .ok _value =>
      match constraintsParse i.stringMethod with
      | .error e =>
        [newAttributeErrorDiagnostic p "Constraints Type Validation Error"
          ("Failed to parse constraints: " ++ e)]
      | .ok _ => []

/-! ### General lemmas: the `%q`-quoted rendering never parses

`ValueFromString` hands `constraints.Parse` the quoted rendering of the
known content. The lemmas below show that any such string — it starts
with a double quote and ends with one — fails to parse: its first token
starts with a double quote, so either it has no `=` (malformed) or its
name starts with a double quote and matches no constraint name. -/

lemma wordsAux_concat (cs : List Char) :
    ∀ as c, ∃ t rest, wordsAux cs (as ++ [c]) = String.mk (c :: t) :: rest := by
  induction cs with
  | nil =>
    intro as c
    refine ⟨as.reverse, [], ?_⟩
    simp [wordsAux]
  | cons d cs ih =>
    intro as c
    by_cases hd : d = ' '
    · refine ⟨as.reverse, wordsAux cs [], ?_⟩
      simp [wordsAux, hd]
    · obtain ⟨t, rest, ht⟩ := ih (d :: as) c
      refine ⟨t, rest, ?_⟩
      simpa [wordsAux, hd] using ht

lemma dropLeading_quote (cs : List Char) : dropLeading ('\"' :: cs) = '\"' :: cs := by
  have h : isSpaceChar '\"' = false := by decide
  simp [dropLeading, h]

lemma trimSpaces_quote (mid : List Char) :
    trimSpaces ('\"' :: (mid ++ ['\"'])) = '\"' :: (mid ++ ['\"']) := by
  have hrev : ('\"' :: (mid ++ ['\"'])).reverse = '\"' :: (mid.reverse ++ ['\"']) := by
    simp
  unfold trimSpaces
  rw [hrev, dropLeading_quote, ← hrev, List.reverse_reverse, dropLeading_quote]

lemma words_quote (mid : List Char) :
    ∃ t rest, words ('\"' :: (mid ++ ['\"'])) = String.mk ('\"' :: t) :: rest := by
  obtain ⟨t, rest, h⟩ := wordsAux_concat (mid ++ ['\"']) [] '\"'
  refine ⟨t, rest, ?_⟩
  have hq : ('\"' : Char) ≠ ' ' := by decide
  have step : words ('\"' :: (mid ++ ['\"'])) = wordsAux (mid ++ ['\"']) ['\"'] := by
    simp [words, wordsAux, hq]
  rw [step]
  simpa using h

lemma splitEq_quote (t : List Char) :
    splitEq ('\"' :: t) =
      match splitEq t with
      | none => none
      | some (n, v) => some ('\"' :: n, v) := by
  have hq : ('\"' : Char) ≠ '=' := by decide
  simp [splitEq, hq]

lemma setConstraint_quote (v : ConstraintsV) (n : List Char) (val : String) :
    setConstraint v (String.mk ('\"' :: n)) val =
      .error ("unknown constraint " ++ goQuote (String.mk ('\"' :: n))) := by
  have hne : ∀ s : String, s.toList.head? ≠ some '\"' → String.mk ('\"' :: n) ≠ s := by
    intro s hs he
    apply hs
    rw [← he]
    rfl
  simp only [setConstraint]
  rw [if_neg (hne "arch" (by decide)), if_neg (hne "container" (by decide)),
    if_neg (hne "cores" (by decide)), if_neg (hne "cpu-power" (by decide)),
    if_neg (hne "instance-type" (by decide)), if_neg (hne "mem" (by decide)),
    if_neg (hne "root-disk" (by decide)), if_neg (hne "virt-type" (by decide))]

lemma parseTokens_quote_head (v : ConstraintsV) (t : List Char) (rest : List String) :
    ∃ e, parseTokens v (String.mk ('\"' :: t) :: rest) = .error e := by
  have htl : (String.mk ('\"' :: t)).toList = '\"' :: t := rfl
  cases hsp : splitEq t with
  | none =>
    refine ⟨"malformed constraint " ++ goQuote (String.mk ('\"' :: t)), ?_⟩
    simp [parseTokens, setRaw, splitRaw, htl, splitEq_quote, hsp]
  | some nv =>
    obtain ⟨n, vv⟩ := nv
    refine ⟨"unknown constraint " ++ goQuote (String.mk ('\"' :: n)), ?_⟩
    simp [parseTokens, setRaw, splitRaw, htl, splitEq_quote, hsp, setConstraint_quote]

/-- The quoted rendering of any string fails `constraints.Parse`. -/
lemma constraintsParse_goQuote (s : String) :
    ∃ e, constraintsParse (goQuote s) = .error e := by
  obtain ⟨t, rest, hw⟩ := words_quote (goEscape s.toList)
  have htrim := trimSpaces_quote (goEscape s.toList)
  have hred : constraintsParse (goQuote s) = parseTokens {} (String.mk ('\"' :: t) :: rest) := by
    unfold constraintsParse
    rw [show (goQuote s).toList = '\"' :: (goEscape s.toList ++ ['\"']) from rfl, htrim, hw]
  obtain ⟨e, he⟩ := parseTokens_quote_head {} t rest
  exact ⟨e, by rw [hred, he]⟩

/-! ### Claim theorems -/

/-- C1: the claim asserts cross-shape equality — `Equal` against a plain
string-shaped value should parse that value's content and compare
semantically, so the value parsed from `"cores=2 mem=4G"` should be
`Equal` to a plain string value `"mem=4G cores=2"`. The code instead
parses the zero-valued `other` left by the failed type assertion (the
empty string), so although the two strings parse to identical structured
constraints, `Equal` returns `false` — and it also returns `false` for
the genuinely different `"cores=4 mem=4G"`. -/
theorem C1_cross_shape_equality_fails_on_code :
    constraintsParse "cores=2 mem=4G" = .ok { cpuCores := some 2, mem := some 4096 } ∧
    constraintsParse "mem=4G cores=2" = .ok { cpuCores := some 2, mem := some 4096 } ∧
    (GetConstraintsValue "cores=2 mem=4G").1.equal
      (AttrValue.stringVal (StringValue.known "mem=4G cores=2")) = false ∧
    (GetConstraintsValue "cores=2 mem=4G").1.equal
      (AttrValue.stringVal (StringValue.known "cores=4 mem=4G")) = false := by
  decide

/-- C2: the claim asserts that a known string that parses against the
domain grammar yields a Known value holding the canonical
re-serialization. The code parses `in.String()` — the `%q`-quoted debug
rendering — which never parses, so even the valid input
`"mem=4G cores=2"` is rejected with one error diagnostic and no value. -/
theorem C2_fromstring_rejects_valid_input :
    constraintsParse "mem=4G cores=2" = .ok { cpuCores := some 2, mem := some 4096 } ∧
    (ValueFromString (StringValue.known "mem=4G cores=2")).1 = none ∧
    (ValueFromString (StringValue.known "mem=4G cores=2")).2.length = 1 ∧
    hasError (ValueFromString (StringValue.known "mem=4G cores=2")).2 = true := by
  decide

/-- C3: the claim asserts that `Validate` accepts a known wire value
whose contained string parses. The code parses `in.String()` — the
`tftypes.String<"..">` debug rendering — instead of the extracted
string, so the valid contained string `"cores=2"` is rejected with one
attribute-scoped error diagnostic. -/
theorem C3_validate_rejects_valid_known_value :
    constraintsParse "cores=2" = .ok { cpuCores := some 2 } ∧
    Validate (TfValue.knownString "cores=2") "constraints" =
      [newAttributeErrorDiagnostic "constraints" "Constraints Type Validation Error"
        ("Failed to parse constraints: unknown constraint " ++
          goQuote "tftypes.String<\"cores")] := by
  decide

/-- C4: null or unknown inputs are always accepted — `ValueFromString`
returns the Null value for null input and the Unknown value for unknown
input with no diagnostics, and `Validate` returns no diagnostics on
null or unknown wire values, whatever the attribute path. -/
theorem C4_null_unknown_permissive :
    ValueFromString StringValue.null = (some ConstraintsNull, []) ∧
    ValueFromString StringValue.unknown = (some ConstraintsUnknown, []) ∧
    (∀ p, Validate TfValue.nullString p = []) ∧
    (∀ p, Validate TfValue.unknownString p = []) :=
  ⟨rfl, rfl, fun _ => rfl, fun _ => rfl⟩

/-- Witness for C4 at a concrete attribute path. -/
theorem C4_witness :
    Validate TfValue.nullString "constraints" = [] ∧
    Validate TfValue.unknownString "constraints" = [] :=
  ⟨C4_null_unknown_permissive.2.2.1 "constraints",
   C4_null_unknown_permissive.2.2.2 "constraints"⟩

/-- C5: for every known, non-null string input that fails to parse
against the domain grammar, `ValueFromString` returns no value and
exactly one error diagnostic describing a parse failure. -/
theorem C5_fromstring_failure_yields_nil_and_one_diagnostic (s e : String)
    (h : constraintsParse s = .error e) :
    ∃ msg, ValueFromString (StringValue.known s) =
      (none, [newErrorDiagnostic "invalid constraints format"
        ("failed to parse constraints: " ++ msg)]) := by
  obtain ⟨m, hm⟩ := constraintsParse_goQuote s
  refine ⟨m, ?_⟩
  simp [ValueFromString, StringValue.isNull, StringValue.isUnknown, StringValue.stringMethod, hm]

/-- Witness for C5 at the concrete failing input `"bogus"`. -/
theorem C5_witness :
    ∃ msg, ValueFromString (StringValue.known "bogus") =
      (none, [newErrorDiagnostic "invalid constraints format"
        ("failed to parse constraints: " ++ msg)]) :=
  C5_fromstring_failure_yields_nil_and_one_diagnostic "bogus"
    ("malformed constraint " ++ goQuote "bogus") (by decide)

/-- C6 counterexample: calling `String()` on a Null or Unknown
`ConstraintsValue` is not a signalled caller error — it silently returns
the zero constraints' canonical rendering, the empty string. -/
theorem C6_counterexample_string_silently_yields_zero :
    ConstraintsNull.stringMethod = ConstraintsV.toStr {} ∧
    ConstraintsUnknown.stringMethod = ConstraintsV.toStr {} ∧
    ConstraintsNull.stringMethod = "" := by
  decide

/-- C6 (amended): every `ConstraintsValue` constructed as Null or
Unknown carries the zero-valued `Constraints` (no parsed content), and
`String()` on such a value silently returns the zero constraints'
canonical rendering — the empty string — rather than signalling an
error. -/
theorem C6_null_unknown_zero_state :
    ConstraintsNull.constraints = {} ∧
    ConstraintsUnknown.constraints = {} ∧
    ConstraintsNull.stringValue.isNull = true ∧
    ConstraintsUnknown.stringValue.isUnknown = true ∧
    ConstraintsNull.stringMethod = "" ∧
    ConstraintsUnknown.stringMethod = "" := by
  decide

/-- C7: `ValueFromTerraform` adapts the wire value to a string value and
delegates to `ValueFromString`, wrapping any error diagnostics into a
single returned error; a known wire value that is not string-shaped
produces a hard error rather than a diagnostic. -/
theorem C7_wire_conversion_delegates :
    (∀ s, ValueFromTerraform (TfValue.knownString s) =
      (if hasError (ValueFromString (StringValue.known s)).2
       then .error (wrapDiagsMsg (ValueFromString (StringValue.known s)).2)
       else .ok (ValueFromString (StringValue.known s)).1)) ∧
    ValueFromTerraform TfValue.nullString = .ok (some ConstraintsNull) ∧
    ValueFromTerraform TfValue.unknownString = .ok (some ConstraintsUnknown) ∧
    (∃ e, ValueFromTerraform TfValue.nonString = .error e) :=
  ⟨fun _ => rfl, rfl, rfl, ⟨_, rfl⟩⟩

/-- Witness for C7 at a concrete known wire string. -/
theorem C7_witness :
    ValueFromTerraform (TfValue.knownString "cores=2") =
      (if hasError (ValueFromString (StringValue.known "cores=2")).2
       then .error (wrapDiagsMsg (ValueFromString (StringValue.known "cores=2")).2)
       else .ok (ValueFromString (StringValue.known "cores=2")).1) :=
  C7_wire_conversion_delegates.1 "cores=2"

/-- C8: any two `ConstraintsType` descriptors are `Equal` and report the
same identity string, and `Equal` is `false` on every `attr.Type` that
is not a `ConstraintsType`. -/
theorem C8_type_identity (t1 t2 : ConstraintsType) (o : AttrType)
    (h : ∀ t3, o ≠ AttrType.constraints t3) :
    t1.equal (AttrType.constraints t2) = true ∧
    t1.stringMethod = t2.stringMethod ∧
    t1.equal o = false := by
  refine ⟨rfl, rfl, ?_⟩
  cases o with
  | constraints t3 => exact absurd rfl (h t3)
  | stringType => rfl
  | other n => rfl

/-- Witness for C8 at two concrete descriptors and the plain string
type. -/
theorem C8_witness :
    ConstraintsType.equal {} (AttrType.constraints {}) = true ∧
    ConstraintsType.stringMethod {} = ConstraintsType.stringMethod {} ∧
    ConstraintsType.equal {} AttrType.stringType = false :=
  C8_type_identity {} {} AttrType.stringType (fun _ h => AttrType.noConfusion h)

/-- C9: when the other operand is a plain string-shaped value, the
result of `Equal` does not depend on that operand's content — the
fallback branch parses the zero-valued `ConstraintsValue`'s rendering
(the empty string), never the operand's content, so the result is
exactly "does the receiver hold the zero constraints". -/
theorem C9_equal_ignores_plain_string_content (v : ConstraintsValue) (s1 s2 : StringValue) :
    v.equal (AttrValue.stringVal s1) = v.equal (AttrValue.stringVal s2) ∧
    v.equal (AttrValue.stringVal s1) = decide (v.constraints = {}) :=
  ⟨rfl, rfl⟩

/-- Witness for C9 at a concrete value and two plain string operands
with different content. -/
theorem C9_witness :
    (GetConstraintsValue "cores=2 mem=4G").1.equal
        (AttrValue.stringVal (StringValue.known "cores=2 mem=4G")) =
      (GetConstraintsValue "cores=2 mem=4G").1.equal
        (AttrValue.stringVal (StringValue.known "arch=amd64")) ∧
    (GetConstraintsValue "cores=2 mem=4G").1.equal
        (AttrValue.stringVal (StringValue.known "cores=2 mem=4G")) =
      decide ((GetConstraintsValue "cores=2 mem=4G").1.constraints = {}) :=
  C9_equal_ignores_plain_string_content (GetConstraintsValue "cores=2 mem=4G").1
    (StringValue.known "cores=2 mem=4G") (StringValue.known "arch=amd64")

/-- C10: `GetConstraintsValue` stores the raw input string (not the
canonical re-serialization) with no diagnostics when the parse succeeds
— witnessed concretely by `"mem=4G cores=2"`, whose canonical rendering
differs — and returns the Unknown value together with exactly one error
diagnostic when the parse fails. -/
theorem C10_raw_on_success_unknown_on_failure :
    (∀ s cv, constraintsParse s = .ok cv →
      GetConstraintsValue s = ({ stringValue := StringValue.known s, constraints := cv }, [])) ∧
    (∀ s e, constraintsParse s = .error e →
      GetConstraintsValue s =
        (ConstraintsUnknown, [newErrorDiagnostic "Invalid Constraints Format" e])) ∧
    (GetConstraintsValue "mem=4G cores=2").1.stringValue = StringValue.known "mem=4G cores=2" ∧
    ConstraintsV.toStr (GetConstraintsValue "mem=4G cores=2").1.constraints ≠
      "mem=4G cores=2" := by
  refine ⟨fun s cv h => ?_, fun s e h => ?_, by decide, by decide⟩
  · simp [GetConstraintsValue, h]
  · simp [GetConstraintsValue, h]

/-- Witness for C10 at a concrete parsing input and a concrete failing
input. -/
theorem C10_witness :
    GetConstraintsValue "cores=2" =
      ({ stringValue := StringValue.known "cores=2", constraints := { cpuCores := some 2 } },
        []) ∧
    GetConstraintsValue "bogus" =
      (ConstraintsUnknown, [newErrorDiagnostic "Invalid Constraints Format"
        ("malformed constraint " ++ goQuote "bogus")]) :=
  ⟨C10_raw_on_success_unknown_on_failure.1 "cores=2" { cpuCores := some 2 } (by decide),
   C10_raw_on_success_unknown_on_failure.2.1 "bogus"
    ("malformed constraint " ++ goQuote "bogus") (by decide)⟩

end TFJuju
